import Mathlib

/-!
Shallow embedding of the intl-relativeformat core (src/src/core.js).

The source is a single JavaScript module exporting `RelativeFormat`.  The
embedding models:
  * the JS option values that reach the constructor (`JSVal`, with JS
    truthiness),
  * the `locales` argument of the constructor (`LocalesArg`: `undefined`,
    a string, or an array of strings),
  * the process-wide registry state (`GlobalData`: `__availableLocales__`,
    `__localeData__`, `defaultLocale`, `thresholds`),
  * `_selectUnits`, `_resolveLocale`, `_isValidUnits`, `_resolveMessage`,
    `_resolveRelativeUnits`, the constructor, `resolvedOptions` and
    `_format`.

JS exceptions are modelled with `Except RFError`; JS `undefined` results of
lookups are modelled with `Option`.  The external collaborators excluded by
the design (the `diff` module and the `intl-messageformat` evaluator) are
parameters: `_format` takes the diff function as an argument, and a compiled
message is represented by the synthesized pattern string paired with the
locale it would be compiled for (`CompiledMessage`), with the evaluation call
kept symbolic in `FormatResult.message`.

String primitives used by the source (`split('-')[0]`, `toLowerCase`,
`/[a-z]{2,3}/.test`, `/s$/.test`, `substring(0, length - 1)`,
`replace('{0}', '#')`, `Array.prototype.join(', ')`) are implemented over
`String.data` character lists so that every definition evaluates by kernel
reduction.
-/

namespace IntlRelativeFormat

/-- A primitive JavaScript value, as can be passed for `options.units`. -/
inductive JSVal where
  | undef
  | null
  | bool (b : Bool)
  | num (n : Int)
  | str (s : String)
  deriving DecidableEq, Repr

/-- JS truthiness of a primitive value (`undefined`, `null`, `false`, `0`
and `""` are falsy). -/
def jsTruthy : JSVal → Bool
  | .undef => false
  | .null => false
  | .bool b => b
  | .num n => decide (n ≠ 0)
  | .str s => decide (s ≠ "")

/-- JS string coercion of a primitive value, as performed by
`/s$/.test(units)` and by string concatenation in error messages. -/
def jsToString : JSVal → String
  | .undef => "undefined"
  | .null => "null"
  | .bool true => "true"
  | .bool false => "false"
  | .num n => toString n
  | .str s => s

/-- The `locales` argument of the `RelativeFormat` constructor: absent
(`undefined`), a single tag string, or an array of tag strings. -/
inductive LocalesArg where
  | undef
  | str (s : String)
  | list (l : List String)
  deriving DecidableEq, Repr

/-- JS truthiness of the `locales` argument.  An array is always truthy,
even when empty; the empty string is falsy. -/
def localesArgFalsy : LocalesArg → Bool
  | .undef => true
  | .str s => decide (s = "")
  | .list _ => false

/-- `typeof locales === 'string'` wrapping plus array access: the list of
candidate tags the resolution loop iterates over.  `undefined` here makes
the source read `.length` of `undefined`, a TypeError (`none`). -/
def localesToList : LocalesArg → Option (List String)
  | .undef => none
  | .str s => some [s]
  | .list l => some l

/-- The errors thrown by core.js, with the data interpolated into each
message kept as payload. -/
inductive RFError where
  | invalidLocaleData (missing : String)
  | malformedLocaleTag (tag : String)
  | unsupportedLocale (tags : String)
  | invalidUnitSuggestion (units : String) (suggestion : String)
  | invalidUnitList (units : String) (valid : List String)
  | invalidDate
  | jsTypeError
  deriving DecidableEq, Repr

/-- `var PRIORITY = ['second', 'minute', 'hour', 'day', 'month', 'year'];` -/
def PRIORITY : List String := ["second", "minute", "hour", "day", "month", "year"]

/-- The `RelativeFormat.thresholds` object.  It has entries for the five
finest units only; `thresholds['year']` is `undefined` in the source. -/
structure Thresholds where
  second : Int
  minute : Int
  hour : Int
  day : Int
  month : Int
  deriving DecidableEq, Repr

/-- The default threshold values of the source (`second: 45, minute: 45,
hour: 22, day: 26, month: 11`). -/
def defaultThresholds : Thresholds :=
  { second := 45, minute := 45, hour := 22, day := 26, month := 11 }

/-- Property access `RelativeFormat.thresholds[units]`; `none` models
`undefined` (in particular for `"year"`). -/
def thresholdFor (t : Thresholds) : String → Option Int
  | "second" => some t.second
  | "minute" => some t.minute
  | "hour" => some t.hour
  | "day" => some t.day
  | "month" => some t.month
  | _ => none

/-- `Math.abs(diffReport[units]) < RelativeFormat.thresholds[units]` — a
comparison against `undefined` is false in JS. -/
def jsAbsLt (v : Int) : Option Int → Bool
  | some k => decide ((v.natAbs : Int) < k)
  | none => false

/-- The loop body of `_selectUnits`: `units` holds the last assigned
priority entry; `break` on the first passing threshold test, otherwise the
last assigned entry (`'year'`) survives the loop. -/
def selectUnitsGo (t : Thresholds) (d : String → Int) : List String → String → String
  | [], units => units
  | u :: rest, _ => if jsAbsLt (d u) (thresholdFor t u) then u else selectUnitsGo t d rest u

/-- `RelativeFormat.prototype._selectUnits` (core.js lines 222–234).  The
initial accumulator models the declared-but-unassigned `var units`; it is
irrelevant because `PRIORITY` is non-empty. -/
def selectUnits (t : Thresholds) (d : String → Int) : String :=
  selectUnitsGo t d PRIORITY "undefined"

/-- `locales[i].split('-')[0].toLowerCase()`: the first hyphen-delimited
segment, lower-cased (ASCII, as `Char.toLower`). -/
def rootLower (tag : String) : String :=
  ⟨(tag.data.takeWhile (fun c => c ≠ '-')).map Char.toLower⟩

/-- A lowercase ASCII letter, the character class of `/[a-z]{2,3}/`. -/
def isLowerLetter (c : Char) : Bool := 'a' ≤ c && c ≤ 'z'

/-- Whether a character list contains two consecutive lowercase letters. -/
def hasTwoConsecLowerList : List Char → Bool
  | [] => false
  | [_] => false
  | a :: b :: rest => (isLowerLetter a && isLowerLetter b) || hasTwoConsecLowerList (b :: rest)

/-- `/[a-z]{2,3}/.test(locale)`: the regex is unanchored, so the test
succeeds exactly when the string contains two consecutive lowercase
letters somewhere (any match of length 2 suffices; `{2,3}` adds nothing). -/
def hasTwoConsecLower (s : String) : Bool := hasTwoConsecLowerList s.data

/-- `locales.join(', ')`. -/
def joinComma : List String → String
  | [] => ""
  | [s] => s
  | s :: rest => s ++ ", " ++ joinComma rest

/-- Per-unit locale field data: `relativeTime` with its `future`/`past`
plural-category maps (a missing map iterates zero times in `for-in`, so it
is modelled as the empty list), and the optional `relative` exact-offset
map. -/
structure RelativeTimeData where
  future : List (String × String)
  past : List (String × String)

/-- `fields[units]` record: `relativeTime` is `undefined`-able (dereferencing
it then throws), `relative` is an optional map from signed offsets to
literal phrases. -/
structure FieldData where
  relativeTime : Option RelativeTimeData
  relative : Option (Int → Option String)

/-- The value stored in `RelativeFormat.__localeData__[key]`, of which the
core reads only `.fields` (an object keyed by unit names). -/
structure LocaleData where
  fields : String → Option FieldData

/-- The process-wide mutable state of the module:
`RelativeFormat.__availableLocales__`, `RelativeFormat.__localeData__`,
`RelativeFormat.defaultLocale` and `RelativeFormat.thresholds`. -/
structure GlobalData where
  availableLocales : List String
  localeData : String → Option LocaleData
  defaultLocale : LocalesArg
  thresholds : Thresholds

/-- `RelativeFormat.__addLocaleData` (core.js lines 40–66): rejects data
without a truthy `locale` or `fields`, then keys the record by the
lower-cased root subtag, appends to the available list and overwrites the
data entry (last write wins). -/
def addLocaleData (g : GlobalData) (tag : Option String)
    (fields : Option (String → Option FieldData)) : Except RFError GlobalData :=
  match tag with
  | none => .error (.invalidLocaleData "locale")
  | some t =>
    if t = "" then .error (.invalidLocaleData "locale")
    else
      match fields with
      | none => .error (.invalidLocaleData "fields")
      | some fs =>
        let key := rootLower t
        .ok { g with
              availableLocales := g.availableLocales ++ [key]
              localeData := fun l => if l = key then some { fields := fs } else g.localeData l }

/-- The scan loop of `_resolveLocale` (core.js lines 156–172): for each
candidate, reduce to the lower-cased root; a root failing the structural
regex test throws immediately; a registered root returns; otherwise the
scan continues.  `.ok none` means the loop fell through. -/
def resolveLoop (avail : List String) : List String → Except RFError (Option String)
  | [] => .ok none
  | tag :: rest =>
    let locale := rootLower tag
    if hasTwoConsecLower locale then
      if avail.contains locale then .ok (some locale)
      else resolveLoop avail rest
    else .error (.malformedLocaleTag locale)

/-- `RelativeFormat.prototype._resolveLocale` (core.js lines 144–178).
A falsy `locales` argument is replaced by `RelativeFormat.defaultLocale`
(once, with no re-check); a string is wrapped in a singleton array; the
scan loop then runs, and falling off the end throws the unsupported-locale
error naming all the attempted tags. -/
def resolveLocale (g : GlobalData) (locales : LocalesArg) : Except RFError String :=
  let ls := if localesArgFalsy locales then g.defaultLocale else locales
  match localesToList ls with
  | none => .error .jsTypeError
  | some arr =>
    match resolveLoop g.availableLocales arr with
    | .error e => .error e
    | .ok (some l) => .ok l
    | .ok none => .error (.unsupportedLocale (joinComma arr))

/-- `/s$/.test(units)` on the coerced string: the last character is `'s'`. -/
def strEndsWithS (s : String) : Bool := s.data.getLast? == some 's'

/-- `units.substring(0, units.length - 1)`: drop the last character. -/
def strDropLast (s : String) : String := ⟨s.data.dropLast⟩

/-- `PRIORITY.indexOf(units) >= 0`: JS `indexOf` uses strict equality, so
only a string can be found. -/
def exactUnitsCheck : JSVal → Bool
  | .str s => PRIORITY.contains s
  | _ => false

/-- `RelativeFormat.prototype._isValidUnits` (core.js lines 125–142):
an exact `PRIORITY` member (strict equality, so only strings can match)
returns true; otherwise, when the value ends in `s` and the truncation is a
non-empty valid unit, the error suggests the singular; otherwise the error
lists all valid units. -/
def isValidUnits (units : JSVal) : Except RFError Bool :=
  if exactUnitsCheck units then
    .ok true
  else
    if strEndsWithS (jsToString units) ∧ strDropLast (jsToString units) ≠ "" ∧
        PRIORITY.contains (strDropLast (jsToString units)) then
      .error (.invalidUnitSuggestion (jsToString units) (strDropLast (jsToString units)))
    else
      .error (.invalidUnitList (jsToString units) PRIORITY)

/-- The compiled message produced by `new IntlMessageFormat(message,
this._locale)`: the collaborator is external, so it is represented by its
two construction inputs. -/
structure CompiledMessage where
  pattern : String
  locale : String
  deriving DecidableEq, Repr

/-- The per-instance state of a `RelativeFormat` object: `_locale`,
`_units` (present only when a valid fixed unit was supplied) and the
`_messages` cache. -/
structure RFState where
  locale : String
  units : Option String
  messages : List (String × CompiledMessage)
  deriving DecidableEq, Repr

/-- Object-property lookup in the `_messages` cache. -/
def lookupAssoc (l : List (String × CompiledMessage)) (k : String) : Option CompiledMessage :=
  match l with
  | [] => none
  | (k', v) :: rest => if k' = k then some v else lookupAssoc rest k

/-- The `RelativeFormat` constructor (core.js lines 19–35): resolve the
locale, create an empty message cache, and pin `_units` only when
`options.units` is truthy and validates. -/
def rfConstructor (g : GlobalData) (locales : LocalesArg) (unitsOpt : JSVal) :
    Except RFError RFState :=
  match resolveLocale g locales with
  | .error e => .error e
  | .ok locale =>
    if jsTruthy unitsOpt then
      match isValidUnits unitsOpt with
      | .error e => .error e
      | .ok b =>
        if b then
          .ok { locale := locale
                units := match unitsOpt with | .str s => some s | _ => none
                messages := [] }
        else
          .ok { locale := locale, units := none, messages := [] }
    else
      .ok { locale := locale, units := none, messages := [] }

/-- `RelativeFormat.prototype.resolvedOptions` (core.js lines 91–96): a pure
read of `_locale` and `_units`. -/
def resolvedOptions (st : RFState) : String × Option String :=
  (st.locale, st.units)

/-- JS `String.prototype.replace` with a string pattern: replace the first
occurrence only. -/
def replaceFirstAux (pat rep : List Char) : List Char → List Char
  | [] => []
  | c :: rest =>
    if listStartsWith pat (c :: rest) then rep ++ (c :: rest).drop pat.length
    else c :: replaceFirstAux pat rep rest
where
  listStartsWith : List Char → List Char → Bool
    | [], _ => true
    | _ :: _, [] => false
    | p :: ps, c :: cs => p == c && listStartsWith ps cs

/-- `str.replace(pat, rep)` for a string pattern (first occurrence). -/
def replaceFirst (s pat rep : String) : String :=
  ⟨replaceFirstAux pat.data rep.data s.data⟩

/-- One `for-in` accumulation loop of `_resolveMessage`:
`acc += ' ' + i + ' {' + map[i].replace('{0}', '#') + '}'`. -/
def buildBranch (entries : List (String × String)) : String :=
  entries.foldl
    (fun acc kv => acc ++ " " ++ kv.1 ++ " \x7b" ++ replaceFirst kv.2 "\x7b0\x7d" "#" ++ "\x7d")
    ""

/-- The synthetic message text of `_resolveMessage` (core.js lines 205–206):
`{when, select, future {{0, plural, ...}}past {{0, plural, ...}}}`. -/
def synthesizePattern (rt : RelativeTimeData) : String :=
  "\x7bwhen, select, future \x7b\x7b0, plural, " ++ buildBranch rt.future ++ "\x7d\x7d" ++
    "past \x7b\x7b0, plural, " ++ buildBranch rt.past ++ "\x7d\x7d\x7d"

/-- `RelativeFormat.prototype._resolveMessage` (core.js lines 180–212):
on a cache miss, read the unit field data from the *global* catalog, build
the synthetic pattern, compile it, store it in the instance cache and
return it; on a hit, return the cached object untouched.  Dereferencing a
missing catalog entry, field record or `relativeTime` throws. -/
def resolveMessage (g : GlobalData) (st : RFState) (units : String) :
    Except RFError (CompiledMessage × RFState) :=
  match lookupAssoc st.messages units with
  | some m => .ok (m, st)
  | none =>
    match g.localeData st.locale with
    | none => .error .jsTypeError
    | some ld =>
      match ld.fields units with
      | none => .error .jsTypeError
      | some field =>
        match field.relativeTime with
        | none => .error .jsTypeError
        | some rt =>
          let m : CompiledMessage := { pattern := synthesizePattern rt, locale := st.locale }
          .ok (m, { st with messages := (units, m) :: st.messages })

/-- `RelativeFormat.prototype._resolveRelativeUnits` (core.js lines
214–220): look up the field record for the unit and, when its `relative`
map exists, index it with the signed diff; otherwise return `undefined`. -/
def resolveRelativeUnits (g : GlobalData) (st : RFState) (d : Int) (units : String) :
    Except RFError (Option String) :=
  match g.localeData st.locale with
  | none => .error .jsTypeError
  | some ld =>
    match ld.fields units with
    | none => .error .jsTypeError
    | some field =>
      match field.relative with
      | some rel => .ok (rel d)
      | none => .ok none

/-- Line 110 of core.js: `this._units || this._selectUnits(diffReport)`.
`_units`, when present, is one of the non-empty `PRIORITY` strings, hence
truthy; the empty string guard mirrors JS truthiness exactly. -/
def determineUnits (st : RFState) (t : Thresholds) (d : String → Int) : String :=
  match st.units with
  | some u => if u = "" then selectUnits t d else u
  | none => selectUnits t d

/-- The outcome of a `format` call: either the literal exact-match phrase
returned verbatim, or the symbolic evaluation `msg.format({'0': abs, when})`
of the compiled message on the pluralized path. -/
inductive FormatResult where
  | phrase (s : String)
  | message (m : CompiledMessage) (abs : Nat) (whenArg : String)
  deriving DecidableEq, Repr

/-- The pluralized tail of `_format` (core.js lines 118–122): fetch or build
the compiled message and evaluate it with the magnitude and direction. -/
def rfMessagePath (g : GlobalData) (st : RFState) (d : Int) (units : String) :
    Except RFError (FormatResult × RFState) :=
  match resolveMessage g st units with
  | .error e => .error e
  | .ok (m, st') => .ok (.message m d.natAbs (if d < 0 then "past" else "future"), st')

/-- The body of `_format` after date validation: compute the unit, probe the
exact-match phrase (returned verbatim when truthy; the empty string is
falsy and falls through), otherwise take the pluralized path. -/
def rfFormatCore (g : GlobalData) (dr : String → Int) (st : RFState) :
    Except RFError (FormatResult × RFState) :=
  let units := determineUnits st g.thresholds dr
  let diffInUnits := dr units
  match resolveRelativeUnits g st diffInUnits units with
  | .error e => .error e
  | .ok (some s) =>
    if s = "" then rfMessagePath g st diffInUnits units else .ok (.phrase s, st)
  | .ok none => rfMessagePath g st diffInUnits units

/-- `RelativeFormat.prototype._format` (core.js lines 98–123).  The input is
the result of `new Date(date).getTime()`: `none` for an invalid date (NaN),
`some ts` for the real instant with timestamp `ts`.  The guard
`!(date && date.getTime())` throws for NaN — and also for the timestamp 0.
The diff collaborator (src/diff.js, external to the core) is the `df`
parameter, applied to the current time `now` and the target timestamp. -/
def rfFormat (g : GlobalData) (df : Int → Int → String → Int) (now : Int)
    (st : RFState) (dateVal : Option Int) : Except RFError (FormatResult × RFState) :=
  match dateVal with
  | none => .error .invalidDate
  | some ts =>
    if ts = 0 then .error .invalidDate
    else rfFormatCore g (df now ts) st

/-- Spec-side predicate, from the words of the spec (§3 LocaleKey and §4.2):
a structural pattern of 2–3 (lowercase) letters, i.e. the whole root is
2 or 3 letters.  Named separately so it can be compared with the source's
unanchored containment test `hasTwoConsecLower`. -/
def isTwoToThreeLetters (s : String) : Bool :=
  (s.data.length == 2 || s.data.length == 3) && s.data.all isLowerLetter

/-! ### Concrete data used by witnesses and counterexamples -/

/-- CLDR-style English `relativeTime` data for the unit `day`. -/
def enRelativeTimeDay : RelativeTimeData :=
  { future := [("one", "in \x7b0\x7d day"), ("other", "in \x7b0\x7d days")]
  , past := [("one", "\x7b0\x7d day ago"), ("other", "\x7b0\x7d days ago")] }

/-- English field data for `day`, with the usual exact-match phrases for
offsets -1, 0 and 1. -/
def enFieldDay : FieldData :=
  { relativeTime := some enRelativeTimeDay
  , relative := some fun d =>
      if d = 0 then some "today"
      else if d = -1 then some "yesterday"
      else if d = 1 then some "tomorrow"
      else none }

/-- A plain field record without exact-match phrases, used for the
remaining units. -/
def plainField : FieldData :=
  { relativeTime := some ⟨[("other", "in \x7b0\x7d units")], [("other", "\x7b0\x7d units ago")]⟩
  , relative := none }

/-- The registered English locale record. -/
def enLocaleData : LocaleData :=
  { fields := fun u => if u = "day" then some enFieldDay else some plainField }

/-- A registry with English registered and `defaultLocale` set to "en". -/
def gEn : GlobalData :=
  { availableLocales := ["en"]
  , localeData := fun l => if l = "en" then some enLocaleData else none
  , defaultLocale := .str "en"
  , thresholds := defaultThresholds }

/-- A formatter instance over `gEn` pinned to the unit `day`
(the result of `rfConstructor gEn (.str "en") (.str "day")`). -/
def stDayEn : RFState := { locale := "en", units := some "day", messages := [] }

/-- The message `_resolveMessage` synthesizes and compiles for `day`
from `enLocaleData`. -/
def enDayMsg : CompiledMessage :=
  { pattern := synthesizePattern enRelativeTimeDay, locale := "en" }

/-- `stDayEn` after its cache has been populated for `day`. -/
def stDayEnCached : RFState :=
  { locale := "en", units := some "day", messages := [("day", enDayMsg)] }

/-- Replacement English day data with different wording, used to model a
re-registration of the catalog after an instance was constructed. -/
def enFieldDayPrime : FieldData :=
  { relativeTime := some ⟨[("other", "IN \x7b0\x7d DAYS")], [("other", "\x7b0\x7d DAYS AGO")]⟩
  , relative := none }

/-- The catalog `gEn` after `__addLocaleData` has been called again for
"en" with the replacement data (last write wins). -/
def gEnPrime : GlobalData :=
  match addLocaleData gEn (some "en") (some fun _ => some enFieldDayPrime) with
  | .ok g2 => g2
  | .error _ => gEn

/-- English day data whose exact-match map sends offset 0 to the *empty*
phrase, the degenerate case for the exact-match precedence claim. -/
def emptyPhraseFieldDay : FieldData :=
  { relativeTime := some enRelativeTimeDay
  , relative := some fun d => if d = 0 then some "" else none }

/-- A registry like `gEn` but whose `day` field carries the empty
exact-match phrase at offset 0. -/
def gEmptyPhrase : GlobalData :=
  { availableLocales := ["en"]
  , localeData := fun l =>
      if l = "en" then
        some { fields := fun u => if u = "day" then some emptyPhraseFieldDay else some plainField }
      else none
  , defaultLocale := .str "en"
  , thresholds := defaultThresholds }

/-- A registry in which the four-letter key "abcd" has been registered. -/
def gAbcd : GlobalData :=
  { availableLocales := ["abcd"]
  , localeData := fun l => if l = "abcd" then some enLocaleData else none
  , defaultLocale := .undef
  , thresholds := defaultThresholds }

/-- A diff collaborator returning 0 for every unit. -/
def dfZero : Int → Int → String → Int := fun _ _ _ => 0

/-- A diff collaborator reporting the target three days in the past. -/
def dfPast3Days : Int → Int → String → Int :=
  fun _ _ u => if u = "day" then -3 else 0

/-- A diff report sitting exactly on the `second` threshold (45) and below
the `minute` threshold. -/
def boundaryDiff : String → Int :=
  fun u => if u = "second" then 45 else if u = "minute" then 3 else 0

/-! ### Helper lemmas -/

/-- The `_selectUnits` loop is first-match search with the last list entry
as fallback. -/
theorem selectUnitsGo_eq_find? (t : Thresholds) (d : String → Int) :
    ∀ (l : List String) (acc : String),
      selectUnitsGo t d l acc =
        ((l.find? fun u => jsAbsLt (d u) (thresholdFor t u)).getD (l.getLast?.getD acc)) := by
  intro l
  induction l with
  | nil => intro acc; rfl
  | cons u rest ih =>
    intro acc
    by_cases h : jsAbsLt (d u) (thresholdFor t u) = true
    · simp [selectUnitsGo, h, List.find?_cons_of_pos _ h]
    · simp only [selectUnitsGo, if_neg h, List.find?_cons_of_neg _ h, ih u]
      cases rest with
      | nil => simp [List.find?, h]
      | cons v vs =>
        rw [List.getLast?_cons_cons,
          List.getLast?_eq_getLast (v :: vs) (List.cons_ne_nil v vs),
          @List.find?_cons_of_neg String (fun w => jsAbsLt (d w) (thresholdFor t w)) u (v :: vs) h]
        simp

/-- Dropping the last character and re-appending it restores the list. -/
theorem dropLast_append_of_getLast? {l : List Char} {c : Char}
    (h : l.getLast? = some c) : l.dropLast ++ [c] = l := by
  have hne : l ≠ [] := by intro hnil; subst hnil; simp at h
  have := List.getLast?_eq_getLast l hne
  rw [this] at h
  obtain rfl : l.getLast hne = c := by injection h
  exact List.dropLast_append_getLast hne

/-- `strDropLast s ++ "s" = s` whenever `s` ends with `'s'`. -/
theorem strDropLast_append_s {s : String} (h : strEndsWithS s = true) :
    strDropLast s ++ "s" = s := by
  apply String.ext
  have hb : (s.data.getLast? == some 's') = true := h
  have h' : s.data.getLast? = some 's' := eq_of_beq hb
  show s.data.dropLast ++ ['s'] = s.data
  exact dropLast_append_of_getLast? h'

/-- `List.contains` agrees with membership for strings. -/
theorem contains_eq_true_iff_mem (l : List String) (s : String) :
    l.contains s = true ↔ s ∈ l := by
  simp [List.contains, List.elem_iff]

/-- Unfolding of the constructor once the locale resolution result is
known. -/
theorem rfConstructor_of_resolve (g : GlobalData) (locales : LocalesArg) (loc : String)
    (hloc : resolveLocale g locales = .ok loc) (v : JSVal) :
    rfConstructor g locales v =
      (if jsTruthy v then
        match isValidUnits v with
        | .error e => .error e
        | .ok b =>
          if b then
            .ok { locale := loc
                  units := match v with | .str s => some s | _ => none
                  messages := [] }
          else .ok { locale := loc, units := none, messages := [] }
      else .ok { locale := loc, units := none, messages := [] }) := by
  unfold rfConstructor
  rw [hloc]

/-- For any value that is neither an exact `PRIORITY` member nor the plural
(`++ "s"`) of one, `_isValidUnits` throws the list-all-units error. -/
theorem isValidUnits_generic (v : JSVal)
    (hne : ∀ u ∈ PRIORITY, jsToString v ≠ u)
    (hnp : ∀ u ∈ PRIORITY, jsToString v ≠ u ++ "s") :
    isValidUnits v = .error (.invalidUnitList (jsToString v) PRIORITY) := by
  unfold isValidUnits
  have hfirst : exactUnitsCheck v = false := by
    cases v with
    | str s =>
      show PRIORITY.contains s = false
      cases hb : PRIORITY.contains s
      · rfl
      · exact absurd rfl (hne s ((contains_eq_true_iff_mem _ _).mp hb))
    | undef => rfl
    | null => rfl
    | bool b => cases b <;> rfl
    | num n => rfl
  rw [hfirst, if_neg Bool.false_ne_true]
  have hcond : ¬(strEndsWithS (jsToString v) = true ∧ strDropLast (jsToString v) ≠ "" ∧
      PRIORITY.contains (strDropLast (jsToString v)) = true) := by
    rintro ⟨he, _, hcont⟩
    have hmem : strDropLast (jsToString v) ∈ PRIORITY :=
      (contains_eq_true_iff_mem _ _).mp hcont
    exact hnp (strDropLast (jsToString v)) hmem (strDropLast_append_s he).symm
  rw [if_neg hcond]

/-- For a `PRIORITY` member passed exactly, the constructor succeeds with
the unit pinned. -/
theorem rfConstructor_exact_unit (g : GlobalData) (locales : LocalesArg) (loc : String)
    (hloc : resolveLocale g locales = .ok loc) (u : String) (hu : u ∈ PRIORITY) :
    rfConstructor g locales (.str u) =
      .ok { locale := loc, units := some u, messages := [] } := by
  rw [rfConstructor_of_resolve g locales loc hloc]
  simp only [PRIORITY, List.mem_cons, List.not_mem_nil, or_false] at hu
  rcases hu with rfl | rfl | rfl | rfl | rfl | rfl <;> rfl

/-! ### Claim theorems -/

/-- C1: for every threshold table and diff report, `_selectUnits` scans
`PRIORITY` in ascending order and returns the first unit whose absolute
diff value is strictly less than that unit's threshold; a magnitude exactly
equal to a unit's threshold never selects that unit; and when no unit's
threshold test succeeds the result is `"year"` unconditionally. -/
theorem C1_unit_selection (t : Thresholds) (d : String → Int) :
    selectUnits t d = ((PRIORITY.find? fun u => jsAbsLt (d u) (thresholdFor t u)).getD "year")
    ∧ (∀ u k, thresholdFor t u = some k → ((d u).natAbs : Int) = k → selectUnits t d ≠ u)
    ∧ ((∀ u ∈ PRIORITY, jsAbsLt (d u) (thresholdFor t u) = false) →
        selectUnits t d = "year") := by
  have h1 : selectUnits t d =
      ((PRIORITY.find? fun u => jsAbsLt (d u) (thresholdFor t u)).getD "year") := by
    unfold selectUnits
    rw [selectUnitsGo_eq_find?]
    rfl
  refine ⟨h1, ?_, ?_⟩
  · intro u k hk habs hsel
    rw [h1] at hsel
    cases hf : PRIORITY.find? fun w => jsAbsLt (d w) (thresholdFor t w) with
    | some v =>
      rw [hf] at hsel
      simp only [Option.getD] at hsel
      subst hsel
      have hp := List.find?_some hf
      rw [hk] at hp
      simp only [jsAbsLt, decide_eq_true_eq] at hp
      omega
    | none =>
      rw [hf] at hsel
      simp only [Option.getD] at hsel
      subst hsel
      simp [thresholdFor] at hk
  · intro hall
    rw [h1]
    have hnone : (PRIORITY.find? fun w => jsAbsLt (d w) (thresholdFor t w)) = none :=
      List.find?_eq_none.mpr fun x hx => by simp [hall x hx]
    rw [hnone]
    rfl

/-- Witness for C1: with the default thresholds, a diff of exactly 45
seconds (the `second` threshold) does not select `second` but escalates to
`minute` (whose diff, 3, is under its threshold). -/
theorem C1_unit_selection_witness :
    selectUnits defaultThresholds boundaryDiff ≠ "second"
    ∧ selectUnits defaultThresholds boundaryDiff = "minute" := by
  constructor
  · exact (C1_unit_selection defaultThresholds boundaryDiff).2.1 "second" 45 rfl rfl
  · rfl

/-- C4 counterexample: with "en" registered, requesting
`["1", "en"]` — a structurally invalid tag followed by a valid registered
tag — throws `MalformedLocaleTag` for "1" instead of resolving "en", so an
invalid candidate does abort the scan; by contrast a structurally valid
but unregistered candidate (`"xx-YY"`) is skipped. -/
theorem C4_invalid_tag_aborts_scan :
    resolveLocale gEn (.list ["1", "en"]) = .error (.malformedLocaleTag "1")
    ∧ gEn.availableLocales.contains (rootLower "en") = true
    ∧ resolveLocale gEn (.list ["xx-YY", "en-US"]) = .ok "en" :=
  ⟨rfl, rfl, rfl⟩

/-- C4 (amended): a structurally invalid candidate aborts resolution
immediately with `MalformedLocaleTag` for its root, regardless of any later
candidates; only structurally valid but unregistered candidates are skipped
without aborting the scan. -/
theorem C4_amended_scan_abort (g : GlobalData) (tag : String) (rest : List String)
    (hinv : hasTwoConsecLower (rootLower tag) = false) :
    resolveLocale g (.list (tag :: rest)) = .error (.malformedLocaleTag (rootLower tag))
    ∧ (∀ (avail : List String) (t2 : String) (ts : List String),
        hasTwoConsecLower (rootLower t2) = true →
        avail.contains (rootLower t2) = false →
        resolveLoop avail (t2 :: ts) = resolveLoop avail ts) := by
  constructor
  · simp [resolveLocale, localesArgFalsy, localesToList, resolveLoop, hinv]
  · intro avail t2 ts h1 h2
    have h2' : rootLower t2 ∉ avail := by
      intro hmem
      rw [(contains_eq_true_iff_mem avail (rootLower t2)).mpr hmem] at h2
      exact Bool.noConfusion h2
    simp [resolveLoop, h1, h2']

/-- Witness for the amended C4: the invalid tag "7" aborts even though the
registered "en" follows it. -/
theorem C4_amended_scan_abort_witness :
    resolveLocale gEn (.list ["7", "en"]) = .error (.malformedLocaleTag (rootLower "7")) :=
  (C4_amended_scan_abort gEn "7" ["en"] rfl).1

/-- C5 counterexample: the structural test of `_resolveLocale` is the
unanchored `/[a-z]{2,3}/`, so the four-letter root "abcd" — which the claim
calls structurally invalid — is accepted and even resolves when registered;
likewise the root "ab1", which contains a non-letter, passes the scan
without a `MalformedLocaleTag` error. -/
theorem C5_root_pattern_cex :
    resolveLocale gAbcd (.list ["abcd"]) = .ok "abcd"
    ∧ isTwoToThreeLetters (rootLower "abcd") = false
    ∧ resolveLoop [] ["ab1"] = .ok none
    ∧ isTwoToThreeLetters (rootLower "ab1") = false :=
  ⟨rfl, rfl, rfl, rfl⟩

/-- C5 (amended): the locale key is still the lower-cased first
hyphen-delimited segment, but a candidate is treated as structurally
invalid exactly when that root contains no two consecutive lowercase
letters — not when it fails to be a whole string of 2–3 letters. -/
theorem C5_amended_structural_test (tag : String) :
    (resolveLoop [] [tag] = .error (.malformedLocaleTag (rootLower tag)) ↔
      hasTwoConsecLower (rootLower tag) = false)
    ∧ rootLower tag = ⟨(tag.data.takeWhile fun c => c ≠ '-').map Char.toLower⟩ := by
  constructor
  · by_cases hv : hasTwoConsecLower (rootLower tag) = true
    · simp [resolveLoop, hv]
    · simp only [Bool.not_eq_true] at hv
      simp [resolveLoop, hv]
  · rfl

/-- Witness for the amended C5: "a1" (no two consecutive letters) is the
kind of root the scan really rejects. -/
theorem C5_amended_structural_test_witness :
    resolveLoop [] ["a1"] = .error (.malformedLocaleTag (rootLower "a1")) :=
  (C5_amended_structural_test "a1").1.mpr rfl

/-- C6 counterexample: an empty *array* of requested tags is truthy in JS,
so `_resolveLocale` does not fall back to `defaultLocale` ("en", registered)
and instead throws the unsupported-locale error with an empty tag list;
the fallback does fire for an absent (`undefined`) argument. -/
theorem C6_empty_list_no_fallback :
    resolveLocale gEn (.list []) = .error (.unsupportedLocale "")
    ∧ resolveLocale gEn .undef = .ok "en" :=
  ⟨rfl, rfl⟩

/-- C6 (amended): the fallback to the configured default locale tag fires
exactly for a falsy `locales` argument — absent (`undefined`) or the empty
string — and resolution then proceeds as if the default tag had been
requested; an empty array never triggers the fallback and fails with
`UnsupportedLocale`. -/
theorem C6_amended_falsy_fallback (g : GlobalData) (d : String)
    (h : g.defaultLocale = .str d) :
    resolveLocale g .undef = resolveLocale g (.str d)
    ∧ resolveLocale g (.str "") = resolveLocale g (.str d)
    ∧ resolveLocale g (.list []) = .error (.unsupportedLocale "") := by
  refine ⟨?_, ?_, ?_⟩
  · by_cases hd : d = ""
    · subst hd; simp [resolveLocale, localesArgFalsy, h]
    · simp [resolveLocale, localesArgFalsy, h, hd]
  · by_cases hd : d = ""
    · subst hd; simp [resolveLocale, localesArgFalsy, h]
    · simp [resolveLocale, localesArgFalsy, h, hd]
  · simp [resolveLocale, localesArgFalsy, localesToList, resolveLoop, joinComma]

/-- Witness for the amended C6, on the registry `gEn` whose default is
"en". -/
theorem C6_amended_falsy_fallback_witness :
    resolveLocale gEn .undef = resolveLocale gEn (.str "en")
    ∧ resolveLocale gEn (.list []) = .error (.unsupportedLocale "") :=
  ⟨(C6_amended_falsy_fallback gEn "en" rfl).1,
   (C6_amended_falsy_fallback gEn "en" rfl).2.2⟩

/-- C7: at construction (with a resolvable locale), an exact member of
`PRIORITY` is accepted and pinned as `_units`; a valid unit name with a
trailing "s" is rejected with an `InvalidUnit` error carrying the singular
suggestion; any other truthy value is rejected with an `InvalidUnit` error
listing all six valid units. -/
theorem C7_units_option_validation (g : GlobalData) (locales : LocalesArg) (loc : String)
    (hloc : resolveLocale g locales = .ok loc) :
    (∀ u ∈ PRIORITY,
      rfConstructor g locales (.str u) =
        .ok { locale := loc, units := some u, messages := [] })
    ∧ (∀ u ∈ PRIORITY,
      rfConstructor g locales (.str (u ++ "s")) =
        .error (.invalidUnitSuggestion (u ++ "s") u))
    ∧ (∀ v : JSVal, jsTruthy v = true →
      (∀ u ∈ PRIORITY, jsToString v ≠ u) →
      (∀ u ∈ PRIORITY, jsToString v ≠ u ++ "s") →
      rfConstructor g locales v = .error (.invalidUnitList (jsToString v) PRIORITY)) := by
  refine ⟨fun u hu => rfConstructor_exact_unit g locales loc hloc u hu, ?_, ?_⟩
  · intro u hu
    rw [rfConstructor_of_resolve g locales loc hloc]
    simp only [PRIORITY, List.mem_cons, List.not_mem_nil, or_false] at hu
    rcases hu with rfl | rfl | rfl | rfl | rfl | rfl <;> rfl
  · intro v hv hne hnp
    rw [rfConstructor_of_resolve g locales loc hloc, hv, isValidUnits_generic v hne hnp]
    rfl

/-- Witness for C7 on `gEn`: "day" is accepted and pinned, "days" draws the
singular suggestion "day" (the spec's scenario B), and the number 7 draws
the error listing all six units. -/
theorem C7_units_option_validation_witness :
    rfConstructor gEn (.str "en") (.str "day") =
      .ok { locale := "en", units := some "day", messages := [] }
    ∧ rfConstructor gEn (.str "en") (.str "days") =
      .error (.invalidUnitSuggestion "days" "day")
    ∧ rfConstructor gEn (.str "en") (.num 7) =
      .error (.invalidUnitList "7" PRIORITY) := by
  have h := C7_units_option_validation gEn (.str "en") "en" rfl
  exact ⟨h.1 "day" (by simp [PRIORITY]),
    h.2.1 "day" (by simp [PRIORITY]),
    h.2.2 (.num 7) rfl (by decide) (by decide)⟩

/-- C8: an instance constructed with a valid fixed unit has that unit
pinned; line 110's unit determination always yields the pinned unit, for
any thresholds and any diff report (the unit selector is never consulted,
so the reported unit cannot change across calls); `resolvedOptions` echoes
exactly the constructed unit; and, `resolvedOptions` being a pure read of
instance state, two consecutive calls return identical results. -/
theorem C8_fixed_unit_pinned (g : GlobalData) (locales : LocalesArg) (loc u : String)
    (st : RFState) (hu : u ∈ PRIORITY)
    (hloc : resolveLocale g locales = .ok loc)
    (hst : rfConstructor g locales (.str u) = .ok st) :
    st = { locale := loc, units := some u, messages := [] }
    ∧ (∀ t d, determineUnits st t d = u)
    ∧ (∀ t1 d1 t2 d2, determineUnits st t1 d1 = determineUnits st t2 d2)
    ∧ resolvedOptions st = (loc, some u)
    ∧ resolvedOptions st = resolvedOptions st := by
  have hne : u ≠ "" := fun h => by subst h; simp [PRIORITY] at hu
  have hstate : st = { locale := loc, units := some u, messages := [] } := by
    have h2 := (rfConstructor_exact_unit g locales loc hloc u hu).symm.trans hst
    exact (Except.ok.inj h2).symm
  subst hstate
  refine ⟨rfl, ?_, ?_, rfl, rfl⟩
  · intro t d
    simp [determineUnits, hne]
  · intro t1 d1 t2 d2
    simp [determineUnits, hne]

/-- Witness for C8: the `gEn` instance pinned to "day" reports "day" even
for a diff report of a million in every unit, and `resolvedOptions` echoes
("en", "day"). -/
theorem C8_fixed_unit_pinned_witness :
    rfConstructor gEn (.str "en") (.str "day") = .ok stDayEn
    ∧ determineUnits stDayEn defaultThresholds (fun _ => 1000000) = "day"
    ∧ resolvedOptions stDayEn = ("en", some "day") := by
  have h := C8_fixed_unit_pinned gEn (.str "en") "en" "day" stDayEn
    (by simp [PRIORITY]) rfl rfl
  exact ⟨rfl, h.2.1 defaultThresholds (fun _ => 1000000), h.2.2.2.1⟩

/-- C10: a falsy `options.units` (empty string, 0, false, null, undefined)
short-circuits the `options.units && this._isValidUnits(...)` guard, so the
constructor succeeds with no pinned unit and unit determination falls
through to the dynamic selector. -/
theorem C10_falsy_units_accepted (g : GlobalData) (locales : LocalesArg) (loc : String)
    (hloc : resolveLocale g locales = .ok loc) (v : JSVal) (hv : jsTruthy v = false) :
    rfConstructor g locales v = .ok { locale := loc, units := none, messages := [] }
    ∧ (∀ t d, determineUnits { locale := loc, units := none, messages := [] } t d =
        selectUnits t d) := by
  constructor
  · rw [rfConstructor_of_resolve g locales loc hloc, hv]
    rfl
  · intro t d
    rfl

/-- Witness for C10: each concrete falsy `units` value named by the claim
is accepted silently with no pinned unit. -/
theorem C10_falsy_units_accepted_witness :
    rfConstructor gEn (.str "en") (.str "") =
      .ok { locale := "en", units := none, messages := [] }
    ∧ rfConstructor gEn (.str "en") (.num 0) =
      .ok { locale := "en", units := none, messages := [] }
    ∧ rfConstructor gEn (.str "en") (.bool false) =
      .ok { locale := "en", units := none, messages := [] }
    ∧ rfConstructor gEn (.str "en") .null =
      .ok { locale := "en", units := none, messages := [] } :=
  ⟨(C10_falsy_units_accepted gEn (.str "en") "en" rfl (.str "") rfl).1,
   (C10_falsy_units_accepted gEn (.str "en") "en" rfl (.num 0) rfl).1,
   (C10_falsy_units_accepted gEn (.str "en") "en" rfl (.bool false) rfl).1,
   (C10_falsy_units_accepted gEn (.str "en") "en" rfl .null rfl).1⟩

/-- C2 counterexample: when the locale data defines the *empty string* as
the exact-match `relative` phrase for offset 0 of `day`, a `format` call
with day-diff 0 does not return that phrase verbatim — `if (relativeUnits)`
is falsy for `""` — and instead enters the pluralized message path,
building and caching the compiled message. -/
theorem C2_empty_phrase_cex :
    (emptyPhraseFieldDay.relative.getD (fun _ => none)) 0 = some ""
    ∧ rfFormat gEmptyPhrase dfZero 5 stDayEn (some 1) =
        .ok (.message enDayMsg 0 "future", stDayEnCached)
    ∧ FormatResult.message enDayMsg 0 "future" ≠ FormatResult.phrase "" := by
  refine ⟨rfl, rfl, ?_⟩
  intro h
  exact FormatResult.noConfusion h

/-- C2 (amended): if the resolved locale's field data defines a *non-empty*
exact-match `relative` phrase for the signed diff of the selected unit,
`format` returns that phrase verbatim and never enters the pluralized
message path (the result is the literal phrase and the instance state,
including the message cache, is unchanged); an empty-string phrase is
falsy and falls through to the pluralized path. -/
theorem C2_exact_phrase_precedence (g : GlobalData) (df : Int → Int → String → Int)
    (now ts : Int) (st : RFState) (u s : String)
    (h0 : ts ≠ 0)
    (hu : determineUnits st g.thresholds (df now ts) = u)
    (hrel : resolveRelativeUnits g st (df now ts u) u = .ok (some s))
    (hs : s ≠ "") :
    rfFormat g df now st (some ts) = .ok (.phrase s, st) := by
  have hred : rfFormat g df now st (some ts) =
      if ts = 0 then .error .invalidDate else rfFormatCore g (df now ts) st := rfl
  rw [hred, if_neg h0]
  unfold rfFormatCore
  simp only [hu, hrel]
  rw [if_neg hs]

/-- Witness for the amended C2: with `relative[0] = "today"` for `day` and
a day-diff of 0, `format` returns "today" verbatim and the cache stays
empty. -/
theorem C2_exact_phrase_precedence_witness :
    rfFormat gEn dfZero 5 stDayEn (some 1) = .ok (.phrase "today", stDayEn) :=
  C2_exact_phrase_precedence gEn dfZero 5 1 stDayEn "day" "today"
    (by decide) rfl rfl (by decide)

/-- C3 (code bug): the validity guard `!(date && date.getTime())` throws
the `InvalidDate` TypeError not only for an invalid date (`NaN`) but also
for the Unix epoch itself — `new Date(0).getTime()` is `0`, which is falsy
— even though the epoch is a real instant (`isSome`); any non-zero
timestamp is formatted normally. -/
theorem C3_epoch_rejected :
    rfFormat gEn dfPast3Days 1000 stDayEn (some 0) = .error .invalidDate
    ∧ (some (0 : Int)).isSome = true
    ∧ rfFormat gEn dfPast3Days 1000 stDayEn none = .error .invalidDate
    ∧ rfFormat gEn dfPast3Days 1000 stDayEn (some 86400000) =
        .ok (.message enDayMsg 3 "past", stDayEnCached) :=
  ⟨rfl, rfl, rfl, rfl⟩

/-- C9: on a cache miss, `_resolveMessage` builds the compiled message from
the global catalog's field data, stores it in the instance cache under the
unit key, and leaves the rest of the instance state untouched; afterwards
*every* access — under any global catalog whatsoever, including one
re-registered with new data — returns the identical cached object and the
identical state, without rebuilding. -/
theorem C9_message_cache_memoized (g g2 : GlobalData) (st st2 : RFState) (u : String)
    (m : CompiledMessage)
    (hfirst : lookupAssoc st.messages u = none)
    (hbuild : resolveMessage g st u = .ok (m, st2)) :
    lookupAssoc st2.messages u = some m
    ∧ st2.messages = (u, m) :: st.messages
    ∧ st2.locale = st.locale
    ∧ st2.units = st.units
    ∧ resolveMessage g2 st2 u = .ok (m, st2)
    ∧ ∃ ld field rt, g.localeData st.locale = some ld ∧ ld.fields u = some field
        ∧ field.relativeTime = some rt
        ∧ m = { pattern := synthesizePattern rt, locale := st.locale } := by
  unfold resolveMessage at hbuild
  rw [hfirst] at hbuild
  cases hld : g.localeData st.locale with
  | none => simp [hld] at hbuild
  | some ld =>
    cases hfd : ld.fields u with
    | none => simp [hld, hfd] at hbuild
    | some field =>
      cases hrt : field.relativeTime with
      | none => simp [hld, hfd, hrt] at hbuild
      | some rt =>
        simp only [hld, hfd, hrt, Except.ok.injEq, Prod.mk.injEq] at hbuild
        obtain ⟨hm, hst2⟩ := hbuild
        subst hm
        subst hst2
        refine ⟨by simp [lookupAssoc], rfl, rfl, rfl, ?_,
          ⟨ld, field, rt, rfl, hfd, hrt, rfl⟩⟩
        simp [resolveMessage, lookupAssoc]

/-- Witness for C9: the `gEn` instance builds and caches the `day` message;
after "en" is re-registered (`gEnPrime`, which really carries the new field
data), the access still returns the stale cached message unchanged. -/
theorem C9_message_cache_memoized_witness :
    resolveMessage gEn stDayEn "day" = .ok (enDayMsg, stDayEnCached)
    ∧ resolveMessage gEnPrime stDayEnCached "day" = .ok (enDayMsg, stDayEnCached)
    ∧ (match gEnPrime.localeData "en" with
        | some ld => ld.fields "day"
        | none => none) = some enFieldDayPrime := by
  have h := C9_message_cache_memoized gEn gEnPrime stDayEn stDayEnCached "day" enDayMsg
    rfl rfl
  exact ⟨rfl, h.2.2.2.2.1, rfl⟩

end IntlRelativeFormat
